import Mathlib

set_option maxRecDepth 8000

/-
Verification of the issue_manager repository (src/src/database.py,
src/src/issue_manager.py, src/src/models.py) against its natural-language
specification.  Python strings are modelled as lists of characters
(Python len / slicing act on code points, as List.length / List.take do),
timestamps as natural numbers, nullable columns as Option, and fallible
storage-engine calls as explicit outcome parameters (Option / Except /
Bool) where a claim depends on them.
-/

/-- Model of a Python string: a list of code points. -/
abbrev Str := List Char

/-- Lowercasing, modelling Python str.lower and the case folding SQLite
LIKE performs; both agree with Char.toLower on the ASCII range used by
every status value and keyword in this repository. -/
def lowerStr (s : Str) : Str := s.map Char.toLower

/-- Boolean test that the first list is a leading segment of the second. -/
def isPrefixB : Str → Str → Bool
  | [], _ => true
  | _ :: _, [] => false
  | a :: as, b :: bs => a = b && isPrefixB as bs

/-- Boolean test that the needle occurs contiguously inside the haystack,
modelling the Python membership test needle in hay on strings. -/
def isSubstrB (needle : Str) : Str → Bool
  | [] => decide (needle = [])
  | c :: t => isPrefixB needle (c :: t) || isSubstrB needle t

/-- Specification-side statement that n is a leading segment of h. -/
def LeadsStr (n h : Str) : Prop := ∃ q, h = n ++ q

/-- Specification-side statement that n occurs contiguously inside h. -/
def SubstrOf (n h : Str) : Prop := ∃ p q, h = p ++ n ++ q

theorem isPrefixB_iff (n h : Str) : isPrefixB n h = true ↔ LeadsStr n h := by
  induction n generalizing h with
  | nil => simp [isPrefixB, LeadsStr]
  | cons a as ih =>
    cases h with
    | nil => simp [isPrefixB, LeadsStr]
    | cons b bs =>
      simp only [isPrefixB, Bool.and_eq_true, decide_eq_true_eq, ih, LeadsStr]
      constructor
      · rintro ⟨rfl, q, rfl⟩
        exact ⟨q, rfl⟩
      · rintro ⟨q, hq⟩
        cases hq
        exact ⟨rfl, q, rfl⟩

theorem isSubstrB_iff (n h : Str) : isSubstrB n h = true ↔ SubstrOf n h := by
  induction h with
  | nil =>
    simp only [isSubstrB, decide_eq_true_eq, SubstrOf]
    constructor
    · rintro rfl
      exact ⟨[], [], rfl⟩
    · rintro ⟨p, q, hpq⟩
      rcases List.append_eq_nil.mp hpq.symm with ⟨h1, h2⟩
      rcases List.append_eq_nil.mp h1 with ⟨_, rfl⟩
      rfl
  | cons c t ih =>
    simp only [isSubstrB, Bool.or_eq_true, isPrefixB_iff, ih]
    constructor
    · rintro (⟨q, hq⟩ | ⟨p, q, hq⟩)
      · exact ⟨[], q, by simpa using hq⟩
      · exact ⟨c :: p, q, by simp [hq]⟩
    · rintro ⟨p, q, hq⟩
      cases p with
      | nil => exact Or.inl ⟨q, by simpa using hq⟩
      | cons x xs =>
        right
        refine ⟨xs, q, ?_⟩
        have := hq
        simp only [List.cons_append] at this
        exact (List.cons.injEq _ _ _ _ ▸ this).2

/-- Case-insensitive containment: the keyword occurs inside the field once
both are lowercased.  This models both the Python test
term.lower() in field.lower() and the SQL clause field LIKE percent
keyword percent (wildcard metacharacters inside the keyword are treated
as literals; no claim exercises them). -/
def ciContains (hay kw : Str) : Bool := isSubstrB (lowerStr kw) (lowerStr hay)

/-- Ellipsis suffix: the last three characters of the string are dots,
the marker left by truncate-with-ellipsis. -/
def hasEllipsisSuffix (s : Str) : Prop := s.drop (s.length - 3) = "...".data

instance (s : Str) : Decidable (hasEllipsisSuffix s) := by
  unfold hasEllipsisSuffix
  infer_instance

/-
Field-length enforcement, translated from the source.

src/src/issue_manager.py, add_issue (lines 81-83):
    if len(title) > 70:
        title = title[:70]
so the interactive add boundary cuts to exactly 70 characters and appends
nothing.

src/src/database.py, create_issue (lines 157-164):
    if len(title) > 140:
        title = title[:137] + "..."
    if description and len(description) > 140:
        description = description[:137] + "..."
    if resolution and len(resolution) > 140:
        resolution = resolution[:137] + "..."
-/

/-- Title handling of add_issue in issue_manager.py: a plain cut to 70
characters, with no ellipsis marker. -/
def add_issue_title_limit (title : Str) : Str :=
  if 70 < title.length then title.take 70 else title

/-- The 140-character truncate-with-ellipsis applied by create_issue and
update_issue in database.py to a required text field. -/
def truncate140 (s : Str) : Str :=
  if 140 < s.length then s.take 137 ++ "...".data else s

/-- The same truncation on a nullable field; the Python guard
if field and len(field) > 140 skips None (and the empty string, which can
never exceed the limit anyway). -/
def truncate140Opt : Option Str → Option Str
  | none => none
  | some s => if s ≠ [] ∧ 140 < s.length then some (s.take 137 ++ "...".data) else some s

/-- An 80-character title used as the concrete over-length input. -/
def t80 : Str := List.replicate 80 'a'

/-- A 150-character field used as the concrete over-length input at the
140-character boundary. -/
def t150 : Str := List.replicate 150 'b'

/-- A 50-character field, under both limits. -/
def t50 : Str := List.replicate 50 'c'

/-- Claim C1, counterexample: a title of 80 characters stored through the
70-character write boundary of add_issue has length exactly 70 but does
not end with the three-character ellipsis marker, refuting the claim that
the stored title ends with the marker. -/
theorem c1_counterexample :
    (add_issue_title_limit t80).length = 70 ∧
      ¬ hasEllipsisSuffix (add_issue_title_limit t80) := by
  decide

/-- Claim C1 (amended): at the interactive add boundary the 70-character
limit is enforced by a plain cut, so an over-length title is stored with
length exactly 70 and no ellipsis marker is appended; at the repository
create boundary the 140-character limit is enforced by
truncation-with-ellipsis, so an over-length field is stored with length
exactly 140 ending in the three-character marker; inputs at or under the
respective limit are stored unchanged. -/
theorem c1_truncation (t : Str) :
    (70 < t.length → (add_issue_title_limit t).length = 70) ∧
      (t.length ≤ 70 → add_issue_title_limit t = t) ∧
      (140 < t.length →
        (truncate140 t).length = 140 ∧ hasEllipsisSuffix (truncate140 t)) ∧
      (t.length ≤ 140 → truncate140 t = t) := by
  have h3 : ("...".data).length = 3 := rfl
  refine ⟨?_, ?_, ?_, ?_⟩
  · intro h
    unfold add_issue_title_limit
    rw [if_pos h, List.length_take]
    omega
  · intro h
    unfold add_issue_title_limit
    rw [if_neg (by omega)]
  · intro h
    unfold truncate140
    rw [if_pos h]
    have hlen : (t.take 137).length = 137 := by
      rw [List.length_take]
      omega
    refine ⟨?_, ?_⟩
    · rw [List.length_append, hlen, h3]
    · unfold hasEllipsisSuffix
      rw [List.length_append, hlen, h3]
      have h137 : 137 + 3 - 3 = (t.take 137).length := by
        rw [hlen]
      rw [h137, List.drop_left]
  · intro h
    unfold truncate140
    rw [if_neg (by omega)]

/-- Claim C1 witness: the amended statement evaluated at the concrete
80-, 150- and 50-character inputs. -/
theorem c1_witness :
    (add_issue_title_limit t80).length = 70 ∧
      (truncate140 t150).length = 140 ∧ hasEllipsisSuffix (truncate140 t150) ∧
      truncate140 t50 = t50 := by
  refine ⟨(c1_truncation t80).1 (by decide), ?_, ?_, (c1_truncation t50).2.2.2 (by decide)⟩
  · exact ((c1_truncation t150).2.2.1 (by decide)).1
  · exact ((c1_truncation t150).2.2.1 (by decide)).2

/-
The issues table of src/src/database.py (initialize_database, lines 62-72):
columns id, title, description, resolution, status, created_at, updated_at.
There is no tags column in this schema.  A row is modelled with the id as
a natural number (AUTOINCREMENT) and the two timestamps as naturals.
-/

/-- A stored row of the issues table of database.py. -/
structure Row where
  id : Nat
  title : Str
  description : Option Str
  status : Str
  resolution : Option Str
  created_at : Nat
  updated_at : Nat
deriving DecidableEq

/-- The rowid AUTOINCREMENT assigns to the next insert: one past the
largest id present. -/
def freshId (db : List Row) : Nat := (db.map Row.id).foldr max 0 + 1

/-- Result of create_issue: the id execute_insert returned (its -1 engine
failure sentinel is modelled as none) together with the table contents. -/
structure CreateResult where
  newId : Option Nat
  db : List Row
deriving DecidableEq

/-- create_issue from database.py (lines 154-170): truncates the three
length-bounded fields, then inserts with CURRENT_TIMESTAMP for both
created_at and updated_at.  The ok flag is the outcome of the underlying
engine insert (execute_insert catches engine errors and returns the -1
sentinel, leaving the table unchanged). -/
def create_issue (ok : Bool) (db : List Row) (now : Nat) (title : Str)
    (description : Option Str) (status : Str) (resolution : Option Str) :
    CreateResult :=
  let title := truncate140 title
  let description := truncate140Opt description
  let resolution := truncate140Opt resolution
  if ok then
    ⟨some (freshId db),
      db ++ [⟨freshId db, title, description, status, resolution, now, now⟩]⟩
  else ⟨none, db⟩

/-- get_issue_by_id from database.py (lines 178-182): SELECT * WHERE
id = ?, returning the first row if any. -/
def get_issue_by_id (db : List Row) (i : Nat) : Option Row :=
  (db.filter (fun r => decide (r.id = i))).head?

/-- update_issue from database.py (lines 184-211): loads the current row,
overlays only the supplied fields, re-applies the 140-character
truncation, stamps updated_at and writes back through execute_query.
The writeOk flag is the engine outcome of that UPDATE: execute_query
catches engine errors and returns the empty list, so a failed write
leaves the table unchanged while update_issue still returns True. -/
def update_issue (db : List Row) (now : Nat) (iid : Nat)
    (title description status resolution : Option Str) (writeOk : Bool) :
    Bool × List Row :=
  match get_issue_by_id db iid with
  | none => (false, db)
  | some current =>
    let title := truncate140 (title.getD current.title)
    let description :=
      truncate140Opt (match description with
        | some d => some d
        | none => current.description)
    let status := status.getD current.status
    let resolution :=
      truncate140Opt (match resolution with
        | some r => some r
        | none => current.resolution)
    (true,
      if writeOk then
        db.map (fun r =>
          if r.id = iid then
            { r with title := title, description := description,
                     status := status, resolution := resolution,
                     updated_at := now }
          else r)
      else db)

/-- The in-memory entity built by Issue.__init__ in src/src/models.py
(lines 9-16): date and modified are both stamped with the construction
time, and a missing or empty tags argument becomes the empty list. -/
structure PyIssue where
  title : Str
  description : Str
  status : Str
  resolution : Option Str
  date : Nat
  modified : Nat
  tags : List Str
deriving DecidableEq

/-- Issue.__init__ from models.py: the Python guard tags if tags else []
maps both None and the empty list to the empty list. -/
def Issue_init (title description status : Str) (resolution : Option Str)
    (tags : Option (List Str)) (now : Nat) : PyIssue :=
  ⟨title, description, status, resolution, now, now,
    match tags with
    | some (t :: ts) => t :: ts
    | _ => []⟩

theorem le_foldr_max (l : List Nat) (a : Nat) (h : a ∈ l) :
    a ≤ l.foldr max 0 := by
  induction l with
  | nil => cases h
  | cons b bs ih =>
    rcases List.mem_cons.mp h with rfl | hmem
    · exact Nat.le_max_left _ _
    · exact Nat.le_trans (ih hmem) (Nat.le_max_right _ _)

theorem id_lt_freshId (db : List Row) (r : Row) (h : r ∈ db) :
    r.id < freshId db := by
  have : r.id ∈ db.map Row.id := List.mem_map_of_mem Row.id h
  have := le_foldr_max _ _ this
  unfold freshId
  omega

theorem filter_id_eq_nil (db : List Row) (i : Nat)
    (h : ∀ r ∈ db, r.id ≠ i) :
    db.filter (fun r => decide (r.id = i)) = [] := by
  induction db with
  | nil => rfl
  | cons b bs ih =>
    have hb : b.id ≠ i := h b (List.mem_cons_self b bs)
    simp only [List.filter_cons, decide_eq_true_eq]
    rw [if_neg hb]
    exact ih (fun r hr => h r (List.mem_cons_of_mem b hr))

/-- Claim C2: creating an issue and reading it back by the returned id
yields a row whose title, description, status and resolution are exactly
the post-truncation created values, with created_at equal to updated_at;
the stored schema of this path has no tags column, and the in-memory
entity constructor likewise stamps date and modified identically. -/
theorem c2_create_getById_roundtrip (db : List Row) (now : Nat) (t : Str)
    (d : Option Str) (s : Str) (rl : Option Str) :
    (create_issue true db now t d s rl).newId = some (freshId db) ∧
      get_issue_by_id (create_issue true db now t d s rl).db (freshId db) =
        some ⟨freshId db, truncate140 t, truncate140Opt d, s,
          truncate140Opt rl, now, now⟩ ∧
      (∀ t2 d2 s2 : Str, ∀ r2 : Option Str, ∀ tg : Option (List Str),
        ∀ n2 : Nat,
        (Issue_init t2 d2 s2 r2 tg n2).date =
          (Issue_init t2 d2 s2 r2 tg n2).modified) := by
  refine ⟨rfl, ?_, fun _ _ _ _ _ _ => rfl⟩
  show get_issue_by_id
      (db ++ [⟨freshId db, truncate140 t, truncate140Opt d, s,
        truncate140Opt rl, now, now⟩]) (freshId db) = _
  unfold get_issue_by_id
  rw [List.filter_append]
  rw [filter_id_eq_nil db (freshId db)
    (fun r hr => Nat.ne_of_lt (id_lt_freshId db r hr))]
  simp

/-- A sample stored row used by concrete witnesses. -/
def sampleRow (i : Nat) : Row :=
  ⟨i, "Sample".data, some "Desc".data, "open".data, none, 1, 1⟩

/-- Claim C4: updating a nonexistent id returns false and leaves every
row of the store unchanged. -/
theorem c4_update_missing_id (db : List Row) (now iid : Nat)
    (t d s rl : Option Str) (writeOk : Bool)
    (h : ∀ r ∈ db, r.id ≠ iid) :
    update_issue db now iid t d s rl writeOk = (false, db) := by
  unfold update_issue
  have hnone : get_issue_by_id db iid = none := by
    unfold get_issue_by_id
    rw [filter_id_eq_nil db iid h]
    rfl
  rw [hnone]

/-- Claim C4 witness: updating id 5 in a store holding only id 1. -/
theorem c4_witness :
    update_issue [sampleRow 1] 9 5 none none none none true =
      (false, [sampleRow 1]) :=
  c4_update_missing_id [sampleRow 1] 9 5 none none none none true (by decide)

/-- Claim C9: when the id exists, update_issue returns true regardless of
the engine outcome of the UPDATE statement, because execute_query
converts a storage fault into an empty result; a failed write leaves the
table unchanged while the caller is still told true. -/
theorem c9_update_ignores_write_fault (db : List Row) (now iid : Nat)
    (t d s rl : Option Str) (writeOk : Bool)
    (h : (get_issue_by_id db iid).isSome = true) :
    (update_issue db now iid t d s rl writeOk).1 = true ∧
      (writeOk = false →
        (update_issue db now iid t d s rl writeOk).2 = db) := by
  rcases hcur : get_issue_by_id db iid with _ | cur
  · rw [hcur] at h
    simp at h
  · unfold update_issue
    rw [hcur]
    refine ⟨rfl, ?_⟩
    rintro rfl
    simp

/-- Claim C9 witness: id 1 exists; with the engine write failing the call
still returns true and the store is unchanged. -/
theorem c9_witness :
    (update_issue [sampleRow 1] 9 1 none none none none false).1 = true ∧
      (update_issue [sampleRow 1] 9 1 none none none none false).2 =
        [sampleRow 1] := by
  have h := c9_update_ignores_write_fault [sampleRow 1] 9 1
    none none none none false (by decide)
  exact ⟨h.1, h.2 rfl⟩

/-
search_issues from database.py (lines 263-272):
    SELECT * FROM issues WHERE title LIKE ? OR description LIKE ?
    ORDER BY created_at DESC
with the keyword wrapped in percent signs on both placeholders.  A NULL
description never matches.  The ORDER BY is modelled by an insertion
sort on created_at, newest first.
-/

/-- The WHERE clause of search_issues: the keyword occurs
case-insensitively in the title or in a non-null description. -/
def rowMatches (kw : Str) (r : Row) : Bool :=
  ciContains r.title kw ||
    (match r.description with
     | some d => ciContains d kw
     | none => false)

/-- Insertion step of the ORDER BY created_at DESC model. -/
def insertByCreated (r : Row) : List Row → List Row
  | [] => [r]
  | x :: xs =>
    if x.created_at ≤ r.created_at then r :: x :: xs
    else x :: insertByCreated r xs

/-- Sort newest-created first. -/
def sortByCreatedDesc : List Row → List Row
  | [] => []
  | x :: xs => insertByCreated x (sortByCreatedDesc xs)

/-- search_issues from database.py. -/
def search_issues (db : List Row) (kw : Str) : List Row :=
  sortByCreatedDesc (db.filter (rowMatches kw))

/-- Specification-side match predicate for the database search: the
lowercased keyword occurs contiguously in the lowercased title, or the
description is present and contains it likewise. -/
def MatchesSpec (kw : Str) (r : Row) : Prop :=
  SubstrOf (lowerStr kw) (lowerStr r.title) ∨
    ∃ d, r.description = some d ∧ SubstrOf (lowerStr kw) (lowerStr d)

theorem rowMatches_iff (kw : Str) (r : Row) :
    rowMatches kw r = true ↔ MatchesSpec kw r := by
  unfold rowMatches MatchesSpec ciContains
  rcases r.description with _ | d <;>
    simp [isSubstrB_iff]

theorem mem_insertByCreated (r a : Row) (l : List Row) :
    a ∈ insertByCreated r l ↔ a = r ∨ a ∈ l := by
  induction l with
  | nil => simp [insertByCreated]
  | cons x xs ih =>
    unfold insertByCreated
    by_cases hx : x.created_at ≤ r.created_at
    · rw [if_pos hx]
      simp
    · rw [if_neg hx]
      simp only [List.mem_cons, ih]
      tauto

theorem pairwise_insertByCreated (r : Row) (l : List Row)
    (h : l.Pairwise (fun a b => b.created_at ≤ a.created_at)) :
    (insertByCreated r l).Pairwise (fun a b => b.created_at ≤ a.created_at) := by
  induction l with
  | nil => simp [insertByCreated]
  | cons x xs ih =>
    rcases List.pairwise_cons.mp h with ⟨hx, hxs⟩
    unfold insertByCreated
    by_cases hcmp : x.created_at ≤ r.created_at
    · rw [if_pos hcmp]
      refine List.pairwise_cons.mpr ⟨?_, h⟩
      intro b hb
      rcases List.mem_cons.mp hb with rfl | hbm
      · exact hcmp
      · exact Nat.le_trans (hx b hbm) hcmp
    · rw [if_neg hcmp]
      refine List.pairwise_cons.mpr ⟨?_, ih hxs⟩
      intro b hb
      rcases (mem_insertByCreated r b xs).mp hb with rfl | hbm
      · exact Nat.le_of_lt (Nat.lt_of_not_le hcmp)
      · exact hx b hbm

theorem mem_sortByCreatedDesc (l : List Row) (a : Row) :
    a ∈ sortByCreatedDesc l ↔ a ∈ l := by
  induction l with
  | nil => simp [sortByCreatedDesc]
  | cons x xs ih =>
    unfold sortByCreatedDesc
    rw [mem_insertByCreated]
    simp [ih]

theorem pairwise_sortByCreatedDesc (l : List Row) :
    (sortByCreatedDesc l).Pairwise (fun a b => b.created_at ≤ a.created_at) := by
  induction l with
  | nil => simp [sortByCreatedDesc]
  | cons x xs ih => exact pairwise_insertByCreated x _ ih

/-
The interactive search of src/src/issue_manager.py (search_issues, lines
415-449) works on the issue objects loaded by models.py and also matches
the status field and the comma-joined tags, preserving load order.  Its
table schema (create_table, lines 47-56) has columns id, title,
description, status, resolution, date, modified, tags.
-/

/-- A stored row of the issues table of issue_manager.py / models.py. -/
structure MRow where
  id : Nat
  title : Str
  description : Str
  status : Str
  resolution : Option Str
  date : Nat
  modified : Nat
  tags : List Str
deriving DecidableEq

/-- The comma-space join applied to tags before storage and matching. -/
def joinTags : List Str → Str
  | [] => []
  | [t] => t
  | t :: t2 :: ts => t ++ (", ".data ++ joinTags (t2 :: ts))

/-- The match test of the interactive search: keyword against title,
description, status or the comma-joined tags, all case-insensitive. -/
def im_matches (term : Str) (i : MRow) : Bool :=
  ciContains i.title term || ciContains i.description term ||
    ciContains i.status term || ciContains (joinTags i.tags) term

/-- search_issues from issue_manager.py: a filter in load order. -/
def im_search (issues : List MRow) (term : Str) : List MRow :=
  issues.filter (im_matches term)

/-- Specification-side match predicate for the interactive search. -/
def IMMatchesSpec (term : Str) (i : MRow) : Prop :=
  SubstrOf (lowerStr term) (lowerStr i.title) ∨
    SubstrOf (lowerStr term) (lowerStr i.description) ∨
    SubstrOf (lowerStr term) (lowerStr i.status) ∨
    SubstrOf (lowerStr term) (lowerStr (joinTags i.tags))

theorem im_matches_iff (term : Str) (i : MRow) :
    im_matches term i = true ↔ IMMatchesSpec term i := by
  unfold im_matches IMMatchesSpec ciContains
  simp [isSubstrB_iff, or_assoc]

/-- The Apple Pie record of the search scenario, created after Banana. -/
def applePieRow : Row :=
  ⟨1, "Apple Pie".data, some "Dessert".data, "open".data, none, 2, 2⟩

/-- The Banana record of the search scenario. -/
def bananaRow : Row :=
  ⟨2, "Banana".data, some "Yellow fruit".data, "open".data, none, 1, 1⟩

/-- The Banana record as an interactive-shell issue with status Open. -/
def bananaM : MRow :=
  ⟨2, "Banana".data, "Yellow fruit".data, "Open".data, none, 1, 1, []⟩

/-- Claim C5, counterexample: the interactive search also matches the
status field, so searching for the keyword open returns the Banana
record even though neither its title nor its description contains the
keyword, refuting the claim that no other field is matched. -/
theorem c5_counterexample :
    im_search [bananaM] "open".data = [bananaM] ∧
      ciContains bananaM.title "open".data = false ∧
      ciContains bananaM.description "open".data = false := by
  decide

/-- Claim C5 (amended): the repository search of database.py returns
exactly the records whose title or non-null description contains the
keyword as a case-insensitive substring, ordered newest-created first,
and the apple scenario returns exactly the Apple Pie record; the
interactive-shell search additionally matches the status and the
comma-joined tags and keeps load order. -/
theorem c5_search_characterisation :
    (∀ (db : List Row) (kw : Str) (r : Row),
      r ∈ search_issues db kw ↔ r ∈ db ∧ MatchesSpec kw r) ∧
      (∀ (db : List Row) (kw : Str),
        (search_issues db kw).Pairwise
          (fun a b => b.created_at ≤ a.created_at)) ∧
      search_issues [applePieRow, bananaRow] "apple".data = [applePieRow] ∧
      (∀ (issues : List MRow) (term : Str) (i : MRow),
        i ∈ im_search issues term ↔ i ∈ issues ∧ IMMatchesSpec term i) := by
  refine ⟨?_, ?_, by decide, ?_⟩
  · intro db kw r
    unfold search_issues
    rw [mem_sortByCreatedDesc, List.mem_filter, rowMatches_iff]
  · intro db kw
    exact pairwise_sortByCreatedDesc _
  · intro issues term i
    unfold im_search
    rw [List.mem_filter, im_matches_iff]

/-
full_text_search from database.py (lines 410-423) queries the issues_fts
shadow index through execute_query and is wrapped in a try/except that
falls back to search_issues on sqlite3.Error.  execute_query (lines
132-141) itself catches sqlite3.Error and returns the empty list, so the
body of full_text_search never raises and the fallback branch is
unreachable: with the shadow index absent the function returns [].
-/

/-- execute_query from database.py as its caller observes it: the engine
outcome is caught inside, an error becoming the empty list, so the call
itself always returns normally. -/
def execute_query_outcome (engine : Except Unit (List Row)) :
    Except Unit (List Row) :=
  .ok (match engine with
       | .ok rows => rows
       | .error _ => [])

/-- full_text_search from database.py; the engine argument is the
storage-engine outcome of the FTS join query (an error when the
issues_fts table is absent). -/
def full_text_search (engine : Except Unit (List Row)) (db : List Row)
    (term : Str) : List Row :=
  match execute_query_outcome engine with
  | .ok rows => rows
  | .error _ => search_issues db term

/-- Claim C6: with the shadow index absent the FTS query fails inside
execute_query, which converts the fault to an empty result, so
full_text_search returns the empty list on every store and term instead
of falling back to the substring search; on the apple store the
substring search would have returned the Apple Pie record. -/
theorem c6_fts_swallowed_error :
    (∀ (db : List Row) (term : Str),
      full_text_search (.error ()) db term = []) ∧
      search_issues [applePieRow, bananaRow] "apple".data = [applePieRow] ∧
      ([] : List Row) ≠ [applePieRow] := by
  refine ⟨fun db term => rfl, by decide, by decide⟩

/-
get_database_stats from database.py (lines 290-318) initialises a dict of
four zeroes and then mutates it field by field inside one try block; each
COUNT query goes through execute_query, which turns an engine fault into
the empty list, whose first-element access raises and lands in the
surrounding except, which returns the dict as mutated so far.  Python
divides the byte size by 1024 in floating point; only its zero-versus-
populated distinction matters here, so the value is modelled as the
natural quotient.
-/

/-- The statistics structure returned by get_database_stats. -/
structure DbStats where
  total_issues : Nat
  open_issues : Nat
  closed_issues : Nat
  database_size_kb : Nat
deriving DecidableEq

/-- get_database_stats from database.py; q1, q2, q3 are the outcomes of
the total, open and closed COUNT queries (none when the engine faulted)
and size the file size in bytes when the database file exists. -/
def get_database_stats (q1 q2 q3 : Option Nat) (size : Option Nat) :
    DbStats :=
  let stats : DbStats := ⟨0, 0, 0, 0⟩
  match q1 with
  | none => stats
  | some n1 =>
    let stats := { stats with total_issues := n1 }
    match q2 with
    | none => stats
    | some n2 =>
      let stats := { stats with open_issues := n2 }
      match q3 with
      | none => stats
      | some n3 =>
        let stats := { stats with closed_issues := n3 }
        match size with
        | none => stats
        | some s => { stats with database_size_kb := s / 1024 }

/-- Claim C8, counterexample: when the total count succeeds with 5 and
the open count then fails, the returned structure is 5,0,0,0 — a
partially populated structure, not the zeroed default, refuting the
claim. -/
theorem c8_counterexample :
    get_database_stats (some 5) none none none =
        (⟨5, 0, 0, 0⟩ : DbStats) ∧
      (⟨5, 0, 0, 0⟩ : DbStats) ≠ (⟨0, 0, 0, 0⟩ : DbStats) := by
  decide

/-- Claim C8 (amended): a failure during stats computation is never
propagated; the fields computed before the first failing step keep their
values and every field from the failing step on is zero, so a failure at
the very first step returns the fully zeroed structure. -/
theorem c8_stats_failure (q1 q2 q3 : Option Nat) (size : Option Nat) :
    (q1 = none → get_database_stats q1 q2 q3 size = ⟨0, 0, 0, 0⟩) ∧
      (q2 = none →
        (get_database_stats q1 q2 q3 size).open_issues = 0 ∧
          (get_database_stats q1 q2 q3 size).closed_issues = 0 ∧
          (get_database_stats q1 q2 q3 size).database_size_kb = 0) ∧
      (q3 = none →
        (get_database_stats q1 q2 q3 size).closed_issues = 0 ∧
          (get_database_stats q1 q2 q3 size).database_size_kb = 0) ∧
      (size = none →
        (get_database_stats q1 q2 q3 size).database_size_kb = 0) := by
  rcases q1 with _ | n1 <;> rcases q2 with _ | n2 <;>
    rcases q3 with _ | n3 <;> rcases size with _ | s <;>
    simp [get_database_stats]

/-- Claim C8 witness: the amended statement evaluated at a first-step
failure and at a second-step failure after a total count of 5. -/
theorem c8_witness :
    get_database_stats none none none none = (⟨0, 0, 0, 0⟩ : DbStats) ∧
      (get_database_stats (some 5) none none none).open_issues = 0 := by
  exact ⟨(c8_stats_failure none none none none).1 rfl,
    ((c8_stats_failure (some 5) none none none).2.1 rfl).1⟩

/-
export_to_csv from src/src/issue_manager.py (lines 17-35) writes one CSV
line per issue from issue.__dict__.values(), preceded by a header of the
attribute names when the file is absent, empty, or opened in overwrite
mode.  For an issue loaded by models.py the attribute order is title,
description, status, resolution, date, modified, tags, id (load_all sets
id after construction, so it comes last).  A cell is modelled by the
Python value it holds; with an empty issues list and a header to write,
the subscript issues[0] raises, modelled as the error outcome.
-/

/-- A CSV cell: the Python value written into it. -/
inductive Cell where
  | nat : Nat → Cell
  | str : Str → Cell
  | strOpt : Option Str → Cell
  | strs : List Str → Cell
deriving DecidableEq

/-- A line of a CSV file. -/
abbrev CsvLine := List Cell

/-- The header line: the attribute names of a loaded issue. -/
def headerLine : CsvLine :=
  [.str "title".data, .str "description".data, .str "status".data,
   .str "resolution".data, .str "date".data, .str "modified".data,
   .str "tags".data, .str "id".data]

/-- The data line written for one issue. -/
def rowLine (r : MRow) : CsvLine :=
  [.str r.title, .str r.description, .str r.status, .strOpt r.resolution,
   .nat r.date, .nat r.modified, .strs r.tags, .nat r.id]

/-- export_to_csv from issue_manager.py.  The file argument is the
current artifact, none when it does not exist; append mode keeps its
content, overwrite mode discards it; the header is written exactly when
the file was absent, empty, or opened in overwrite mode. -/
def export_to_csv (issues : List MRow) (file : Option (List CsvLine))
    (append : Bool) : Except Unit (List CsvLine) :=
  let file_is_empty := file.isSome && decide (file = some [])
  let write_header := !file.isSome || file_is_empty || !append
  if issues.isEmpty && write_header then .error ()
  else
    .ok ((if append then file.getD [] else []) ++
      (if write_header then [headerLine] else []) ++ issues.map rowLine)


/-- The row produced by Issue.update from src/src/models.py (lines
58-71) for a matching stored row: an UPDATE that sets title,
description, status, resolution and tags from the in-memory object and
stamps modified with a fresh timestamp, while the row keeps its own id
and date, which the UPDATE does not name. -/
def overlayFrom (self r : MRow) (now : Nat) : MRow :=
  ⟨r.id, self.title, self.description, self.status, self.resolution,
    r.date, now, self.tags⟩

/-- Issue.update from models.py applied to the whole table: every row
with the object id is overwritten. -/
def m_update (db : List MRow) (self : MRow) (now : Nat) : List MRow :=
  db.map (fun r => if r.id = self.id then overlayFrom self r now else r)

/-- First stored row with the given id, as the for-loops of
issue_manager.py locate issues. -/
def m_find (db : List MRow) (iid : Nat) : Option MRow :=
  db.find? (fun r => decide (r.id = iid))

/-- The in-memory issue object as archive_issue leaves it before writing
back: status Archived and the modified stamp refreshed. -/
def archivedCopy (issue : MRow) (now : Nat) : MRow :=
  { issue with status := "Archived".data, modified := now }

/-- Result of archive_issue: whether an action was taken, the table, and
the archive export artifact. -/
structure ArchiveResult where
  acted : Bool
  db : List MRow
  file : Option (List CsvLine)
deriving DecidableEq

/-- The branch of archive_issue taken once the issue with the requested
id has been found: status must be Resolved and the user must confirm;
then the status becomes Archived, the in-memory modified stamp is set
to nowMem, Issue.update writes the object back stamping nowUpd into the
row, and the archived object is appended to the archive CSV.  The error
branch of the export is unreachable because the exported list is a
singleton. -/
def archive_found (file : Option (List CsvLine)) (confirm : Bool)
    (nowMem nowUpd : Nat) (db : List MRow) (issue : MRow) :
    ArchiveResult :=
  if issue.status = "Resolved".data then
    if confirm then
      match export_to_csv [archivedCopy issue nowMem] file true with
      | .ok newFile =>
        ⟨true, m_update db (archivedCopy issue nowMem) nowUpd,
          some newFile⟩
      | .error _ =>
        ⟨true, m_update db (archivedCopy issue nowMem) nowUpd, file⟩
    else ⟨false, db, file⟩
  else ⟨false, db, file⟩

/-- archive_issue from issue_manager.py (lines 267-306): locates the
issue by id (no action when absent) and proceeds as archive_found. -/
def archive_issue (db : List MRow) (file : Option (List CsvLine))
    (iid : Nat) (confirm : Bool) (nowMem nowUpd : Nat) : ArchiveResult :=
  match m_find db iid with
  | none => ⟨false, db, file⟩
  | some issue => archive_found file confirm nowMem nowUpd db issue

theorem m_find_m_update (db : List MRow) (self r : MRow) (now : Nat)
    (h : m_find db self.id = some r) :
    m_find (m_update db self now) self.id =
      some (overlayFrom self r now) := by
  induction db with
  | nil => simp [m_find, List.find?] at h
  | cons x xs ih =>
    by_cases hx : x.id = self.id
    · have hr : r = x := by
        unfold m_find at h
        rw [List.find?_cons_of_pos _ (by simp [hx])] at h
        exact (Option.some.inj h).symm
      subst hr
      unfold m_update m_find
      simp only [List.map_cons]
      rw [if_pos hx]
      rw [List.find?_cons_of_pos _ (by simp [overlayFrom, hx])]
    · have htail : m_find xs self.id = some r := by
        unfold m_find at h
        rw [List.find?_cons_of_neg _ (by simp [hx])] at h
        exact h
      unfold m_update m_find
      simp only [List.map_cons]
      rw [if_neg hx]
      rw [List.find?_cons_of_neg _ (by simp [hx])]
      exact ih htail

theorem export_append_shape (issues : List MRow)
    (file : Option (List CsvLine)) (hne : issues ≠ []) :
    ∃ hdr, (hdr = [] ∨ hdr = [headerLine]) ∧
      export_to_csv issues file true =
        .ok (file.getD [] ++ hdr ++ issues.map rowLine) := by
  refine ⟨if !file.isSome ||
      (file.isSome && decide (file = some [])) || !true
    then [headerLine] else [], ?_, ?_⟩
  · split <;> simp
  · cases issues with
    | nil => exact absurd rfl hne
    | cons a as =>
      unfold export_to_csv
      simp only [List.isEmpty_cons, Bool.false_and, Bool.false_eq_true,
        if_false]
      rfl

/-- The Resolved issue with an unset resolution used in the archive
counterexample and witness. -/
def resolvedNoRes : MRow :=
  ⟨1, "T".data, "D".data, "Resolved".data, none, 0, 0, []⟩

/-- Claim C3, counterexample: archiving a Resolved record whose
resolution was never set succeeds, yet the stored record afterwards
still has no resolution — archive_issue does not stamp the resolution,
refuting that part of the claim. -/
theorem c3_counterexample :
    (archive_issue [resolvedNoRes] none 1 true 5 6).acted = true ∧
      (m_find (archive_issue [resolvedNoRes] none 1 true 5 6).db 1).map
        MRow.resolution = some none := by
  decide

/-- Claim C3 (amended): archive succeeds exactly on a stored record
whose status is Resolved, with confirmation; on success it stores the
record with status Archived and its resolution left exactly as it was
(the operation does not stamp a resolution), and it appends exactly one
new line for that record to the archive artifact after the existing
content, preceded by a header only when the artifact was absent or
empty; on failure the table and the artifact are unchanged. -/
theorem c3_archive (db : List MRow) (file : Option (List CsvLine))
    (iid : Nat) (confirm : Bool) (nowMem nowUpd : Nat) :
    ((archive_issue db file iid confirm nowMem nowUpd).acted = true ↔
      ∃ r, m_find db iid = some r ∧ r.status = "Resolved".data ∧
        confirm = true) ∧
      (∀ r, m_find db iid = some r → r.status = "Resolved".data →
        confirm = true →
        m_find (archive_issue db file iid confirm nowMem nowUpd).db iid =
          some (overlayFrom (archivedCopy r nowMem) r nowUpd) ∧
        (overlayFrom (archivedCopy r nowMem) r nowUpd).status =
          "Archived".data ∧
        (overlayFrom (archivedCopy r nowMem) r nowUpd).resolution =
          r.resolution ∧
        ∃ hdr, (hdr = [] ∨ hdr = [headerLine]) ∧
          (archive_issue db file iid confirm nowMem nowUpd).file =
            some (file.getD [] ++ hdr ++
              [rowLine (archivedCopy r nowMem)])) ∧
      ((archive_issue db file iid confirm nowMem nowUpd).acted = false →
        (archive_issue db file iid confirm nowMem nowUpd).db = db ∧
        (archive_issue db file iid confirm nowMem nowUpd).file = file) := by
  rcases hf : m_find db iid with _ | r
  · have harch : archive_issue db file iid confirm nowMem nowUpd =
        ⟨false, db, file⟩ := by
      unfold archive_issue
      rw [hf]
    refine ⟨?_, ?_, ?_⟩
    · rw [harch]
      refine ⟨fun h => (nomatch h), ?_⟩
      rintro ⟨r, hr, _, _⟩
      exact absurd hr (by simp)
    · intro r hr
      exact absurd hr (by simp)
    · rw [harch]
      intro
      exact ⟨rfl, rfl⟩
  · have hstep : archive_issue db file iid confirm nowMem nowUpd =
        archive_found file confirm nowMem nowUpd db r := by
      unfold archive_issue
      rw [hf]
    by_cases hs : r.status = "Resolved".data
    · rcases confirm with _ | _
      · have harch : archive_found file false nowMem nowUpd db r =
            ⟨false, db, file⟩ := by
          unfold archive_found
          rw [if_pos hs, if_neg (by decide)]
        refine ⟨?_, ?_, ?_⟩
        · rw [hstep, harch]
          refine ⟨fun h => (nomatch h), ?_⟩
          rintro ⟨r2, _, _, hc⟩
          exact absurd hc (by decide)
        · intro r2 _ _ hc
          exact absurd hc (by decide)
        · rw [hstep, harch]
          intro
          exact ⟨rfl, rfl⟩
      · have hid : r.id = iid := by
          have h2 : List.find? (fun x => decide (x.id = iid)) db =
              some r := hf
          have := List.find?_some h2
          simpa using this
        obtain ⟨hdr, hhdr, hexp⟩ :=
          export_append_shape [archivedCopy r nowMem] file (by simp)
        have harch : archive_found file true nowMem nowUpd db r =
            ⟨true, m_update db (archivedCopy r nowMem) nowUpd,
              some (file.getD [] ++ hdr ++
                [rowLine (archivedCopy r nowMem)])⟩ := by
          unfold archive_found
          rw [if_pos hs, if_pos rfl, hexp]
          rfl
        have hfind : m_find db (archivedCopy r nowMem).id = some r := by
          show m_find db r.id = some r
          rw [hid]
          exact hf
        have hupd := m_find_m_update db (archivedCopy r nowMem) r
          nowUpd hfind
        refine ⟨?_, ?_, ?_⟩
        · rw [hstep, harch]
          exact ⟨fun _ => ⟨r, rfl, hs, rfl⟩, fun _ => rfl⟩
        · intro r2 hr2 _ _
          have hr2r : r2 = r := (Option.some.inj hr2).symm
          subst hr2r
          rw [hstep, harch]
          refine ⟨?_, rfl, rfl, hdr, hhdr, rfl⟩
          show m_find (m_update db (archivedCopy r2 nowMem) nowUpd)
            iid = some (overlayFrom (archivedCopy r2 nowMem) r2 nowUpd)
          rw [← hid]
          exact hupd
        · rw [hstep, harch]
          intro h
          exact (nomatch h)
    · have harch : archive_found file confirm nowMem nowUpd db r =
          ⟨false, db, file⟩ := by
        unfold archive_found
        rw [if_neg hs]
      refine ⟨?_, ?_, ?_⟩
      · rw [hstep, harch]
        refine ⟨fun h => (nomatch h), ?_⟩
        rintro ⟨r2, hr2, hs2, _⟩
        have : r2 = r := (Option.some.inj hr2).symm
        subst this
        exact absurd hs2 hs
      · intro r2 hr2 hs2 _
        have : r2 = r := (Option.some.inj hr2).symm
        subst this
        exact absurd hs2 hs
      · rw [hstep, harch]
        intro
        exact ⟨rfl, rfl⟩

/-- Claim C3 witness: the amended statement evaluated on a store holding
one Resolved issue with unset resolution and an absent archive
artifact. -/
theorem c3_witness :
    (archive_issue [resolvedNoRes] none 1 true 5 6).acted = true ∧
      m_find (archive_issue [resolvedNoRes] none 1 true 5 6).db 1 =
        some (overlayFrom (archivedCopy resolvedNoRes 5) resolvedNoRes
          6) := by
  have h := c3_archive [resolvedNoRes] none 1 true 5 6
  refine ⟨h.1.mpr ⟨resolvedNoRes, by decide, by decide, rfl⟩, ?_⟩
  exact (h.2.1 resolvedNoRes (by decide) (by decide) rfl).1

/-
export_all_issues from issue_manager.py (lines 400-413) deduplicates the
loaded issues through a Python dict keyed by id — keys keep the position
of their first occurrence, the value is the last row seen for that id —
and then rewrites the whole CSV in overwrite mode.
-/

/-- One dict assignment d[r.id] = r: replaces the value if the key is
present, appends a new entry otherwise. -/
def dictInsert (acc : List MRow) (r : MRow) : List MRow :=
  if acc.any (fun x => decide (x.id = r.id)) then
    acc.map (fun x => if x.id = r.id then r else x)
  else acc ++ [r]

/-- The dict comprehension issue.id -> issue over the load order. -/
def dedupById (l : List MRow) : List MRow := l.foldl dictInsert []

/-- export_all_issues from issue_manager.py: deduplicate by id, then
export in overwrite mode. -/
def export_all_issues (issues : List MRow)
    (file : Option (List CsvLine)) : Except Unit (List CsvLine) :=
  export_to_csv (dedupById issues) file false

/-- The id-level shadow of dictInsert: insert a key, keeping first
positions. -/
def natInsert (s : List Nat) (i : Nat) : List Nat :=
  if i ∈ s then s else s ++ [i]

theorem ids_dictInsert (acc : List MRow) (r : MRow) :
    (dictInsert acc r).map MRow.id = natInsert (acc.map MRow.id) r.id := by
  unfold dictInsert natInsert
  by_cases h : r.id ∈ acc.map MRow.id
  · have hany : acc.any (fun x => decide (x.id = r.id)) = true := by
      rw [List.any_eq_true]
      obtain ⟨x, hx, hfx⟩ := List.mem_map.mp h
      exact ⟨x, hx, by simp [hfx]⟩
    rw [if_pos hany, if_pos h, List.map_map]
    apply List.map_congr_left
    intro x _
    by_cases hx : x.id = r.id
    · simp [hx]
    · simp [hx]
  · have hany : ¬ acc.any (fun x => decide (x.id = r.id)) = true := by
      intro hc
      obtain ⟨x, hx, hdec⟩ := List.any_eq_true.mp hc
      exact h (List.mem_map.mpr ⟨x, hx, by simpa using hdec⟩)
    rw [if_neg hany, if_neg h]
    simp

theorem ids_dedup_aux (l : List MRow) :
    ∀ acc : List MRow,
      (l.foldl dictInsert acc).map MRow.id =
        (l.map MRow.id).foldl natInsert (acc.map MRow.id) := by
  induction l with
  | nil => intro acc; rfl
  | cons a as ih =>
    intro acc
    simp only [List.foldl_cons, List.map_cons]
    rw [ih (dictInsert acc a), ids_dictInsert]

theorem natInsert_nodup (acc : List Nat) (i : Nat) (h : acc.Nodup) :
    (natInsert acc i).Nodup := by
  unfold natInsert
  by_cases hm : i ∈ acc
  · rw [if_pos hm]
    exact h
  · rw [if_neg hm]
    rw [List.nodup_append]
    refine ⟨h, List.nodup_singleton i, ?_⟩
    intro a ha hai
    rw [List.mem_singleton] at hai
    subst hai
    exact hm ha

theorem natFold_nodup (s : List Nat) :
    ∀ acc : List Nat, acc.Nodup → (s.foldl natInsert acc).Nodup := by
  induction s with
  | nil => intro acc h; exact h
  | cons i is ih =>
    intro acc h
    simp only [List.foldl_cons]
    exact ih _ (natInsert_nodup acc i h)

theorem natFold_toFinset (s : List Nat) :
    ∀ acc : List Nat,
      (s.foldl natInsert acc).toFinset = acc.toFinset ∪ s.toFinset := by
  induction s with
  | nil => intro acc; simp
  | cons i is ih =>
    intro acc
    simp only [List.foldl_cons, List.toFinset_cons]
    rw [ih (natInsert acc i)]
    by_cases h : i ∈ acc
    · rw [show natInsert acc i = acc from if_pos h]
      ext a
      simp only [Finset.mem_union, List.mem_toFinset, Finset.mem_insert]
      constructor
      · rintro (ha | ha)
        · exact Or.inl ha
        · exact Or.inr (Or.inr ha)
      · rintro (ha | rfl | ha)
        · exact Or.inl ha
        · exact Or.inl h
        · exact Or.inr ha
    · rw [show natInsert acc i = acc ++ [i] from if_neg h]
      ext a
      simp only [Finset.mem_union, List.mem_toFinset, Finset.mem_insert,
        List.mem_append, List.mem_singleton]
      tauto

theorem dedup_ids_eq (l : List MRow) :
    (dedupById l).map MRow.id = (l.map MRow.id).foldl natInsert [] :=
  ids_dedup_aux l []

theorem dedup_ids_nodup (l : List MRow) :
    ((dedupById l).map MRow.id).Nodup := by
  rw [dedup_ids_eq]
  exact natFold_nodup _ [] List.nodup_nil

theorem dedup_length_card (l : List MRow) :
    (dedupById l).length = (l.map MRow.id).toFinset.card := by
  have h1 : ((dedupById l).map MRow.id).toFinset =
      (l.map MRow.id).toFinset := by
    rw [dedup_ids_eq, natFold_toFinset]
    simp
  have h2 := List.toFinset_card_of_nodup (dedup_ids_nodup l)
  calc (dedupById l).length
      = ((dedupById l).map MRow.id).length := (List.length_map _ _).symm
    _ = ((dedupById l).map MRow.id).toFinset.card := h2.symm
    _ = (l.map MRow.id).toFinset.card := by rw [h1]

theorem dedup_ne_nil (l : List MRow) (h : l ≠ []) : dedupById l ≠ [] := by
  cases l with
  | nil => exact absurd rfl h
  | cons a as =>
    have hpos : 0 < (dedupById (a :: as)).length := by
      rw [dedup_length_card]
      refine Finset.card_pos.mpr ⟨a.id, ?_⟩
      rw [List.mem_toFinset]
      exact List.mem_map_of_mem MRow.id (List.mem_cons_self a as)
    exact List.ne_nil_of_length_pos hpos

theorem export_overwrite_shape (issues : List MRow)
    (file : Option (List CsvLine)) (hne : issues ≠ []) :
    export_to_csv issues file false =
      .ok (headerLine :: issues.map rowLine) := by
  cases issues with
  | nil => exact absurd rfl hne
  | cons a as =>
    unfold export_to_csv
    simp only [List.isEmpty_cons, Bool.false_and, Bool.false_eq_true,
      if_false, Bool.not_false, Bool.or_true, if_true]
    rfl

/-- Claim C7: on any nonempty input the deduplicating CSV export writes
a header line followed by exactly one data line per distinct id of the
input, with no id appearing in two data lines. -/
theorem c7_export_dedup (l : List MRow) (file : Option (List CsvLine))
    (h : l ≠ []) :
    export_all_issues l file =
        .ok (headerLine :: (dedupById l).map rowLine) ∧
      ((dedupById l).map rowLine).length = (l.map MRow.id).toFinset.card ∧
      ((dedupById l).map MRow.id).Nodup := by
  refine ⟨?_, ?_, dedup_ids_nodup l⟩
  · exact export_overwrite_shape (dedupById l) file (dedup_ne_nil l h)
  · rw [List.length_map]
    exact dedup_length_card l

/-- A three-element input list with a duplicated id used by the C7
witness. -/
def dupList : List MRow :=
  [⟨1, "A".data, "a".data, "Open".data, none, 1, 1, []⟩,
   ⟨1, "B".data, "b".data, "Open".data, none, 2, 2, []⟩,
   ⟨2, "C".data, "c".data, "Open".data, none, 3, 3, []⟩]

/-- Claim C7 witness: the export over a list with ids 1, 1, 2 has a
header plus one data line per distinct id, and the data-line ids are
pairwise distinct. -/
theorem c7_witness :
    export_all_issues dupList none =
        .ok (headerLine :: (dedupById dupList).map rowLine) ∧
      ((dedupById dupList).map rowLine).length =
        (dupList.map MRow.id).toFinset.card ∧
      ((dedupById dupList).map MRow.id).Nodup := by
  exact c7_export_dedup dupList none (by decide)

/-
create_issues_batch from database.py (lines 341-348): builds for every
input dict the parameter triple (title, description, status-or-open)
and runs one INSERT naming only the columns title, description, status,
created_at, updated_at through executemany.  The resolution column is
never named, so it takes its schema default NULL, and any resolution or
tags keys of the input dicts are never read.
-/

/-- One input dict handed to create_issues_batch; resolution and tags
may be supplied by the caller but the function never reads them. -/
structure BatchIssue where
  title : Str
  description : Option Str
  status : Option Str
  resolution : Option Str
  tags : List Str
deriving DecidableEq

/-- The rows executemany inserts: consecutive rowids from the next free
one, resolution NULL, both timestamps CURRENT_TIMESTAMP. -/
def insertRows (nextId now : Nat) :
    List (Str × Option Str × Str) → List Row
  | [] => []
  | p :: ps =>
    ⟨nextId, p.1, p.2.1, p.2.2, none, now, now⟩ ::
      insertRows (nextId + 1) now ps

/-- create_issues_batch from database.py; ok is the engine outcome of
the batch transaction (execute_batch returns False and rolls back on an
engine error). -/
def create_issues_batch (ok : Bool) (db : List Row) (now : Nat)
    (issues : List BatchIssue) : Bool × List Row :=
  let params := issues.map
    (fun i => (i.title, i.description, i.status.getD "open".data))
  if ok then (true, db ++ insertRows (freshId db) now params)
  else (false, db)

theorem insertRows_fields (ps : List (Str × Option Str × Str)) :
    ∀ nextId now : Nat,
      (insertRows nextId now ps).map
        (fun r => (r.title, r.description, r.status, r.resolution)) =
      ps.map (fun p => (p.1, p.2.1, p.2.2, (none : Option Str))) := by
  induction ps with
  | nil => intro nextId now; rfl
  | cons p ps ih =>
    intro nextId now
    simp only [insertRows, List.map_cons]
    rw [ih]

/-- Claim C10: a successful batch create leaves the existing rows in
place and appends one row per input whose persisted title, description
and status are exactly the supplied ones (status defaulting to open when
absent) and whose resolution is NULL — the resolution and tags supplied
by the caller are dropped. -/
theorem c10_batch_drops_resolution (db : List Row) (now : Nat)
    (issues : List BatchIssue) :
    (create_issues_batch true db now issues).2.take db.length = db ∧
      ((create_issues_batch true db now issues).2.drop db.length).map
          (fun r => (r.title, r.description, r.status, r.resolution)) =
        issues.map (fun i =>
          (i.title, i.description, i.status.getD "open".data,
            (none : Option Str))) := by
  unfold create_issues_batch
  simp only [if_true]
  constructor
  · exact List.take_left db _
  · rw [List.drop_left, insertRows_fields, List.map_map]
    rfl

/-- Claim C5 witness: the membership characterisation evaluated at the
Apple Pie record and the keyword apple. -/
theorem c5_witness :
    applePieRow ∈ search_issues [applePieRow, bananaRow] "apple".data := by
  refine (c5_search_characterisation.1 [applePieRow, bananaRow]
    "apple".data applePieRow).mpr ⟨by decide, Or.inl ⟨[], " pie".data, by decide⟩⟩
